import Mathlib

/-!
Shallow embedding of the tree-walking interpreter (rdni/interpreter).

Sources embedded:
* `src/frontend/ast.rs` — AST node model (`Stmt`, `Expr`, `Body::run`);
* `src/runtime/environment.rs` — `Environment`, `setup_scope`,
  `Environment::declare_var`, `SharedEnvironment::{resolve, lookup_var, assign_var}`;
* `src/runtime/values.rs` — the runtime value model and `FunctionValue::call`;
* `src/eval/eval_expressions.rs` and `src/eval/eval_statements.rs` — the evaluator;
* `src/runtime/interpreter.rs` — the `eval` dispatch.

Modelling conventions:
* Rust `f64` number payloads are modelled as `Int`: every number any claim
  exercises is integral, and no claim touches IEEE-specific behaviour
  (division, NaN, fractional rendering).  The `as i32` / `as usize` casts on
  indices are modelled on `Int` directly (claims use small values).
* `Arc<Mutex<Environment>>` sharing is modelled by a store (`State`) of
  environment records addressed by index; `Arc::clone` is index copying and
  `Arc::ptr_eq` is index equality.  `HashMap<String, _>` is modelled as an
  association list with replace-on-insert.
* `fatal_error` (print + abort) is `Err.fatal msg`; a Rust panic coming from a
  failed `unwrap` / `expect` / downcast / out-of-bounds fetch is `Err.panicked`;
  `error(..)` (reported, non-fatal) only prints, so it is invisible here and
  execution continues with the source's substituted default value.
* Native functions (`print`, `time`, `sleep`, `input`, `exit`) perform host
  I/O; invoking one is modelled as the opaque outcome `Err.hostCall`.  No claim
  evaluates a native call — the claims only look the bindings up.
* The evaluator is fueled (`Nat` fuel, decremented on every recursive call);
  `Err.outOfFuel` is an artifact of the embedding, not a behaviour of the code.
-/

namespace Interp

/-- `ValueType` from `src/runtime/values.rs`.  The snapshot of `values.rs`
under `src/` lacks the `List` variant, but `eval_expressions.rs` and
`eval_statements.rs` match on `ValueType::List`; the variant is included as
those call sites require. -/
inductive VType where
  | null
  | number
  | string
  | boolean
  | object
  | list
  | nativeFn
  | function
deriving DecidableEq, Repr

/-- Identity of a host callable registered by `setup_scope`
(`src/runtime/native_funcs.rs`).  `Rc::ptr_eq` on the callables is equality of
these tags, since each is wrapped in exactly one `Rc` at startup. -/
inductive NativeId where
  | print
  | time
  | sleep
  | input
  | exit
deriving DecidableEq, Repr

/-- Expression nodes from `src/frontend/ast.rs`, as a closed union.
`objectLit` properties are `(key, optional value)` pairs (`Property`);
a `none` value is the shorthand form. -/
inductive Expr where
  | identifier (symbol : String)
  | numericLiteral (value : Int)
  | stringLiteral (string : String)
  | binary (left right : Expr) (operator : String)
  | comparative (left right : Expr) (operator : String)
  | assignment (assignee value : Expr)
  | objectLit (properties : List (String × Option Expr))
  | listLit (elements : List Expr)
  | member (object property : Expr) (computed : Bool)
  | call (caller : Expr) (args : List Expr)

/-- Statement nodes from `src/frontend/ast.rs`.  A `Body` is a `List Stmt`;
every expression is also a statement (`Stmt.expr`). -/
inductive Stmt where
  | expr (e : Expr)
  | varDecl (constant : Bool) (identifier : String) (value : Option Expr)
  | funcDecl (name : String) (parameters : List String) (body : List Stmt)
  | ret (value : Expr)
  | ifStmt (condition : Expr) (body : List Stmt) (elseStmt : Option (List Stmt))
  | whileStmt (condition : Expr) (body : List Stmt)
  | forStmt (iterable : Expr) (loopVar : Expr) (body : List Stmt)

/-- Runtime values from `src/runtime/values.rs`.  `function` stores the
declaration environment by store index (`declaration_env: Arc<Mutex<_>>`).
`list` is `ListValue` — referenced throughout `src/` but its own definition is
in a file not under `src/`; modelled from the spec: an ordered sequence of
values. -/
inductive Value where
  | null
  | boolean (b : Bool)
  | number (n : Int)
  | str (s : String)
  | object (properties : List (String × Value))
  | list (elements : List Value)
  | nativeFn (id : NativeId)
  | function (name : String) (parameters : List String) (declarationEnv : Nat)
      (body : List Stmt)

/-- Evaluation outcomes that stop the interpreter. -/
inductive Err where
  | fatal (msg : String)
  | panicked
  | hostCall
  | outOfFuel
deriving DecidableEq, Repr

/-- One `Environment` record (`src/runtime/environment.rs`): optional parent
(store index), variable map, list of constant names, and the
`continue_interpreting` flag (defaults `true`). -/
structure EnvData where
  parent : Option Nat
  vars : List (String × Value)
  consts : List String
  continueInterpreting : Bool

/-- The store of all environments ever allocated; an environment handle
(`Arc<Mutex<Environment>>`) is an index into this list. -/
structure State where
  envs : List EnvData

def State.getEnv? (st : State) (envId : Nat) : Option EnvData :=
  st.envs.get? envId

def State.setEnv (st : State) (envId : Nat) (e : EnvData) : State :=
  { envs := st.envs.set envId e }

/-- Allocate a fresh environment (`Environment::new` for the non-global case
allocates with empty maps and `continue_interpreting = true`). -/
def State.alloc (st : State) (e : EnvData) : Nat × State :=
  (st.envs.length, { envs := st.envs ++ [e] })

/-- `HashMap::contains_key`. -/
def assocContains (l : List (String × Value)) (k : String) : Bool :=
  l.any (fun p => p.1 == k)

/-- `HashMap::get`. -/
def assocGet? : List (String × Value) → String → Option Value
  | [], _ => none
  | (k', v') :: rest, k => if k' == k then some v' else assocGet? rest k

/-- `HashMap::insert`: replaces the binding if the key is present, otherwise
adds it. -/
def assocSet : List (String × Value) → String → Value → List (String × Value)
  | [], k, v => [(k, v)]
  | (k', v') :: rest, k, v =>
    if k' == k then (k, v) :: rest else (k', v') :: assocSet rest k v

/-- A fresh `Environment` record before any declaration
(`Environment::new`). -/
def emptyEnv (parent : Option Nat) : EnvData :=
  { parent := parent, vars := [], consts := [], continueInterpreting := true }

/-- `Environment::declare_var` (environment.rs lines 94–105): fatal if the
name already exists in this very environment; otherwise record the constant
flag (prepended to `constants`) and insert the binding. -/
def EnvData.declareVar (e : EnvData) (varname : String) (value : Value)
    (constant : Bool) : Except Err EnvData :=
  if assocContains e.vars varname then
    .error (.fatal ("Cannot declare variable " ++ varname ++
      " as it is already defined."))
  else
    .ok { e with
          consts := if constant then varname :: e.consts else e.consts,
          vars := assocSet e.vars varname value }

/-- `setup_scope` (environment.rs lines 10–40): pre-populate the root
environment with the constants `null`, `true`, `false` and the native
functions `print`, `time`, `sleep`, `input`, `exit` — all declared constant.
No other name is registered. -/
def setupScope (env : EnvData) : Except Err EnvData := do
  let env ← env.declareVar "null" .null true
  let env ← env.declareVar "true" (.boolean true) true
  let env ← env.declareVar "false" (.boolean false) true
  let env ← env.declareVar "print" (.nativeFn .print) true
  let env ← env.declareVar "time" (.nativeFn .time) true
  let env ← env.declareVar "sleep" (.nativeFn .sleep) true
  let env ← env.declareVar "input" (.nativeFn .input) true
  let env ← env.declareVar "exit" (.nativeFn .exit) true
  return env

/-- The root environment: `Environment::new(None)` runs `setup_scope`.
The declarations in `setupScope` target distinct names in an empty map, so
the error branch is unreachable; the fallback keeps the definition total. -/
def globalEnv : EnvData :=
  match setupScope (emptyEnv none) with
  | .ok e => e
  | .error _ => emptyEnv none

/-- Interpreter start: a store holding exactly the root environment, at
index 0. -/
def initState : State := { envs := [globalEnv] }

/-- `SharedEnvironment::resolve` (environment.rs lines 118–129): walk the
parent chain from `envId` for the first environment owning `varname`; a
missing binding at the root is the fatal unresolved-variable error.  The
fuel bounds the chain length (parents always precede children in the store,
so `st.envs.length` steps always suffice). -/
def resolveAux : Nat → State → Nat → String → Except Err Nat
  | 0, _, _, _ => .error .outOfFuel
  | fuel + 1, st, envId, varname =>
    match st.getEnv? envId with
    | none => .error .panicked
    | some e =>
      if assocContains e.vars varname then
        .ok envId
      else
        match e.parent with
        | some p => resolveAux fuel st p varname
        | none => .error (.fatal ("Error resolving variable " ++ varname))

def resolve (st : State) (envId : Nat) (varname : String) : Except Err Nat :=
  resolveAux (st.envs.length + 1) st envId varname

/-- `SharedEnvironment::lookup_var` (environment.rs lines 131–135): resolve,
then `unwrap` the binding — the `unwrap` cannot fail after a successful
resolve. -/
def lookupVar (st : State) (envId : Nat) (varname : String) : Except Err Value := do
  let rid ← resolve st envId varname
  match st.getEnv? rid with
  | none => .error .panicked
  | some e =>
    match assocGet? e.vars varname with
    | some v => .ok v
    | none => .error .panicked

/-- `SharedEnvironment::assign_var` (environment.rs lines 137–149), transcribed
exactly: after resolving the owning environment the code computes
`is_constant` and then aborts when `!is_constant` — i.e. it aborts for
NON-constant names (printing "Cannot re-assign a constant variable.") and
re-inserts the binding when the name IS constant. -/
def assignVar (st : State) (envId : Nat) (varname : String) (value : Value) :
    Except Err (Value × State) := do
  let rid ← resolve st envId varname
  match st.getEnv? rid with
  | none => .error .panicked
  | some e =>
    let isConstant := e.consts.contains varname
    if !isConstant then
      .error (.fatal "Cannot re-assign a constant variable.")
    else
      .ok (value, st.setEnv rid { e with vars := assocSet e.vars varname value })

/-- `Environment::is_global`: no parent. -/
def EnvData.isGlobal (e : EnvData) : Bool :=
  e.parent.isNone

/-- `RuntimeValue::get_type`. -/
def Value.getType : Value → VType
  | .null => .null
  | .boolean _ => .boolean
  | .number _ => .number
  | .str _ => .string
  | .object _ => .object
  | .list _ => .list
  | .nativeFn _ => .nativeFn
  | .function .. => .function

/-- `NumberValue::to_string`: the `.replace(".0", "")` trick renders integral
floats without the fractional part; on the integral payloads modelled here it
is plain decimal rendering. -/
def numberToString (n : Int) : String :=
  toString n

def padEachLine (amount : Nat) (s : String) : String :=
  String.intercalate "\n"
    ((s.splitOn "\n").map (fun line => String.join (List.replicate amount " ") ++ line))

mutual

/-- `RuntimeValue::to_string` per variant (values.rs).  The `HashMap`
iteration order of `ObjectValue::to_string` is unspecified in the source; the
insertion order of the modelled association list is used.  `ListValue` is not
under `src/`; its rendering is unexercised and rendered like a list. -/
def valueToString : Value → String
  | .null => "null"
  | .boolean b => if b then "true" else "false"
  | .number n => numberToString n
  | .str s => s
  | .object props => "\x7b\n" ++ propsToString props ++ "\x7d"
  | .list es => listToString es
  | .nativeFn _ => "NativeFn"
  | .function name _ _ _ => name

/-- The property loop inside `ObjectValue::to_string`. -/
def propsToString : List (String × Value) → String
  | [] => ""
  | (k, v) :: rest =>
    padEachLine 4 (k ++ ": " ++ valueToString v) ++ "\n" ++ propsToString rest

def listToString : List Value → String
  | [] => ""
  | v :: rest => valueToString v ++ listToString rest

end

/-- `RuntimeValue::as_bool` per variant.  (`ListValue::as_bool` is not under
`src/`; modelled from the spec's truthiness convention for containers.) -/
def Value.asBool : Value → Bool
  | .null => false
  | .boolean b => b
  | .number n => n != 0
  | .str s => s.length != 0
  | .object props => props.length != 0
  | .list es => es.length != 0
  | .nativeFn _ => true
  | .function .. => true

/-- `RuntimeValue::equals` per variant.  Each implementation downcasts `other`
to its own variant with `.unwrap()`, so a cross-variant call is a panic
(`none` here); `eval_comp_expr` only calls it under a same-type guard.
Object equality: property-count gate, then `to_string` comparison.
NativeFn: `Rc::ptr_eq`; Function: `Arc::ptr_eq` on the captured environment.
(`ListValue::equals` is not under `src/` and is never reached by a claim.) -/
def valEquals : Value → Value → Option Bool
  | .null, _ => some true
  | .boolean b, .boolean b' => some (b == b')
  | .number n, .number n' => some (n == n')
  | .str s, .str s' => some (s == s')
  | .object p, .object q =>
    if p.length != q.length then some false
    else some (valueToString (.object p) == valueToString (.object q))
  | .nativeFn a, .nativeFn b => some (a == b)
  | .function _ _ d _, .function _ _ d' _ => some (d == d')
  | _, _ => none

/-- `RuntimeValue::less_than`: only `NumberValue` overrides the default, which
is the fatal "Cannot compare with this operator"; a number compared with a
non-number panics on the downcast. -/
def valLessThan : Value → Value → Except Err Bool
  | .number a, .number b => .ok (decide (a < b))
  | .number _, _ => .error .panicked
  | _, _ => .error (.fatal "Cannot compare with this operator")

/-- `RuntimeValue::greater_than`, same shape as `less_than`. -/
def valGreaterThan : Value → Value → Except Err Bool
  | .number a, .number b => .ok (decide (a > b))
  | .number _, _ => .error .panicked
  | _, _ => .error (.fatal "Cannot compare with this operator")

/-- `eval_numeric_binary_expr` (eval_expressions.rs lines 39–48).  `/` and `%`
carry host float semantics in the source; they are modelled on the integral
payloads and are exercised by no claim. -/
def evalNumericBinaryExpr (lhs rhs : Int) (operator : String) : Value :=
  if operator == "+" then .number (lhs + rhs)
  else if operator == "-" then .number (lhs - rhs)
  else if operator == "*" then .number (lhs * rhs)
  else if operator == "/" then .number (lhs / rhs)
  else if operator == "%" then .number (lhs % rhs)
  else .number 0

/-- `eval_string_binary_expr` (lines 50–58): `+` concatenates; any other
operator reports a non-fatal error and yields the empty string. -/
def evalStringBinaryExpr (lhs rhs : String) (operator : String) : Value :=
  if operator == "+" then .str (lhs ++ rhs)
  else .str ""

/-- `str.repeat(n)`. -/
def strRepeat (s : String) (n : Nat) : String :=
  String.join (List.replicate n s)

/-- `eval_string_numeric_binary_expr` (lines 60–69): regardless of which side
the string operand stood on, `+` is `string.value + number.value.to_string()`
(number appended on the right) and `*` repeats the string `number as usize`
times; other operators report and yield the empty string. -/
def evalStringNumericBinaryExpr (string : String) (number : Int)
    (operator : String) : Value :=
  if operator == "+" then .str (string ++ toString number)
  else if operator == "*" then .str (strRepeat string number.toNat)
  else .str ""

/-- The type dispatch of `eval_binop_expr` (lines 10–37) after both operands
are evaluated: number⊗number, string⊗string, then string⊗number in either
order (the string operand is picked out, erasing its position), otherwise
null. -/
def binopOnValues (lhs rhs : Value) (operator : String) : Value :=
  match lhs, rhs with
  | .number a, .number b => evalNumericBinaryExpr a b operator
  | .str a, .str b => evalStringBinaryExpr a b operator
  | .str a, .number b => evalStringNumericBinaryExpr a b operator
  | .number a, .str b => evalStringNumericBinaryExpr b a operator
  | _, _ => .null

/-- The operator dispatch of `eval_comp_expr` (lines 71–146) after both
operands are evaluated.  Every operator first compares runtime types:
differing types give `false` (`!=`: `true`) without consulting the value
model; `>=`/`<=` short-circuit `greater_than/less_than || equals`; an unknown
operator reports a non-fatal error and yields null. -/
def evalCompOp (operator : String) (left right : Value) : Except Err Value :=
  if operator == "==" then
    if left.getType != right.getType then .ok (.boolean false)
    else do
      let b ← match valEquals left right with
        | some b => Except.ok b
        | none => Except.error Err.panicked
      .ok (.boolean b)
  else if operator == ">" then
    if left.getType != right.getType then .ok (.boolean false)
    else do
      let b ← valGreaterThan left right
      .ok (.boolean b)
  else if operator == "<" then
    if left.getType != right.getType then .ok (.boolean false)
    else do
      let b ← valLessThan left right
      .ok (.boolean b)
  else if operator == ">=" then
    if left.getType != right.getType then .ok (.boolean false)
    else do
      let g ← valGreaterThan left right
      if g then .ok (.boolean true)
      else do
        let e ← match valEquals left right with
          | some b => Except.ok b
          | none => Except.error Err.panicked
        .ok (.boolean e)
  else if operator == "<=" then
    if left.getType != right.getType then .ok (.boolean false)
    else do
      let l ← valLessThan left right
      if l then .ok (.boolean true)
      else do
        let e ← match valEquals left right with
          | some b => Except.ok b
          | none => Except.error Err.panicked
        .ok (.boolean e)
  else if operator == "!=" then
    if left.getType != right.getType then .ok (.boolean true)
    else do
      let b ← match valEquals left right with
        | some b => Except.ok b
        | none => Except.error Err.panicked
      .ok (.boolean (!b))
  else
    .ok .null

/-- The out-of-range test of the list branch of `eval_member_expr`
(eval_expressions.rs line 248): `(elements.len() as i32) < index + 1 ||
index <= -2`. -/
def outOfRangeGuard (len : Nat) (index : Int) : Bool :=
  decide ((len : Int) < index + 1) || decide (index ≤ -2)

/-- The list branch of `eval_member_expr` (lines 233–256) after the index has
been evaluated to a number: fire the out-of-range guard, else for `-1` fetch
`elements[elements.len() - 1]` — for an empty list the `usize` subtraction
underflows and the fetch panics (debug: overflow panic; release: wrapped
index fails the `.get` and the `.unwrap()` panics) — else fetch
`elements[index]`. -/
def listIndex (elements : List Value) (index : Int) : Except Err Value :=
  if outOfRangeGuard elements.length index then
    .error (.fatal "Index out of range")
  else if index == -1 then
    match elements.get? (elements.length - 1) with
    | some v => .ok v
    | none => .error .panicked
  else
    match elements.get? index.toNat with
    | some v => .ok v
    | none => .error .panicked

/-- The parameter-binding loop of `FunctionValue::call` (values.rs lines
273–275): declare each parameter (non-constant) in the fresh call
environment; `args.get(i).unwrap()` cannot fail after the arity check. -/
def bindParams (envId : Nat) : List String → List Value → State → Except Err State
  | [], _, st => .ok st
  | _ :: _, [], _ => .error .panicked
  | p :: ps, a :: rest, st =>
    match st.getEnv? envId with
    | none => .error .panicked
    | some e => do
      let e' ← e.declareVar p a false
      bindParams envId ps rest (st.setEnv envId e')

mutual

/-- The `eval` dispatch (`src/runtime/interpreter.rs`) together with the case
bodies from `eval_expressions.rs` / `eval_statements.rs`.  The dispatch has
NO arm for the `While`, `For` or `List` node kinds: they fall through to its
catch-all, the fatal "This statement has not yet been set up for
interpretation" (the source appends the offending node's Debug rendering to
that message; the rendering is omitted here).  `eval_while` and
`eval_list_expr` exist in `src/eval/eval_statements.rs` /
`eval_expressions.rs` but no dispatch arm reaches them; `eval_while` is
embedded on its own as `evalWhileLoop` below. -/
def eval (fuelP : Nat) (stmtP : Stmt) (envIdP : Nat) (stP : State) :
    Except Err (Value × State) :=
  match fuelP, stmtP, envIdP, stP with
  | 0, _, _, _ => .error .outOfFuel
  | fuel + 1, stmt, envId, st =>
    match stmt with
    | .expr e =>
      match e with
      | .numericLiteral n => .ok (.number n, st)
      | .stringLiteral s => .ok (.str s, st)
      | .identifier sym => do
        let v ← lookupVar st envId sym
        .ok (v, st)
      | .binary l r op => do
        let (lhs, st) ← eval fuel (.expr l) envId st
        let (rhs, st) ← eval fuel (.expr r) envId st
        .ok (binopOnValues lhs rhs op, st)
      | .comparative l r op => do
        let (left, st) ← eval fuel (.expr l) envId st
        let (right, st) ← eval fuel (.expr r) envId st
        let v ← evalCompOp op left right
        .ok (v, st)
      | .assignment assignee value =>
        match assignee with
        | .identifier sym => do
          let (v, st) ← eval fuel (.expr value) envId st
          assignVar st envId sym v
        | .member objE propE _ =>
          match objE with
          | .identifier baseSym => do
            let (property, st) ←
              match propE with
              | .identifier psym => Except.ok (psym, st)
              | .stringLiteral _ => do
                let (pv, st) ← eval fuel (.expr propE) envId st
                match pv with
                | .str s => Except.ok (s, st)
                | _ => Except.error Err.panicked
              | _ => Except.error (Err.fatal "Unexpected value in member assignment expr")
            let (v, st) ← eval fuel (.expr value) envId st
            let objV ← lookupVar st envId baseSym
            match objV with
            | .object props =>
              assignVar st envId baseSym (.object (assocSet props property v))
            | _ => .error .panicked
          | _ => .error .panicked
        | _ => .error (.fatal "Invalid LHS inside assignment expression")
      | .objectLit props => do
        let (ps, st) ← evalObjectProps fuel props [] envId st
        .ok (.object ps, st)
      | .listLit _ =>
        .error (.fatal "This statement has not yet been set up for interpretation")
      | .member objE propE computed => do
        let (obj, st) ← eval fuel (.expr objE) envId st
        match obj with
        | .object props =>
          if !computed then
            match propE with
            | .identifier sym =>
              match assocGet? props sym with
              | some v => .ok (v, st)
              | none => .error .panicked
            | _ => .error (.fatal "Unexpected value found in member expression.")
          else do
            let (pv, st) ← eval fuel (.expr propE) envId st
            match pv with
            | .str s =>
              match assocGet? props s with
              | some v => .ok (v, st)
              | none => .error .panicked
            | _ => .error (.fatal "Unexpected value found in member expression.")
        | .list elements =>
          if !computed then .error (.fatal "List cannot be indexed like this")
          else do
            let (pv, st) ← eval fuel (.expr propE) envId st
            match pv with
            | .number n => do
              let v ← listIndex elements n
              .ok (v, st)
            | _ => .error (.fatal "List can only be indexed by numbers")
        | _ => .error (.fatal "Invalid member expression")
      | .call caller args => do
        let (evaluatedArgs, st) ← evalExprList fuel args envId st
        let (func, st) ← eval fuel (.expr caller) envId st
        match func with
        | .nativeFn _ => .error .hostCall
        | .function _ params _declEnv body =>
          callFunction fuel params body envId evaluatedArgs st
        | _ => .error (.fatal "Cannot call this value")
    | .varDecl constant name vOpt =>
      match vOpt with
      | none => .error .panicked
      | some ve => do
        let (v, st) ← eval fuel (.expr ve) envId st
        match st.getEnv? envId with
        | none => .error .panicked
        | some e => do
          let e' ← e.declareVar name v constant
          .ok (v, st.setEnv envId e')
    | .funcDecl name params body =>
      match st.getEnv? envId with
      | none => .error .panicked
      | some e => do
        let e' ← e.declareVar name (.function name params envId body) true
        .ok (.null, st.setEnv envId e')
    | .ret ve =>
      match st.getEnv? envId with
      | none => .error .panicked
      | some e =>
        if e.isGlobal then
          .error (.fatal "Cannot use return statement outside of function.")
        else do
          let (v, st) ← eval fuel (.expr ve) envId st
          match st.getEnv? envId with
          | none => .error .panicked
          | some e2 =>
            .ok (v, st.setEnv envId { e2 with continueInterpreting := false })
    | .ifStmt cond body elseB => do
      let (c, st) ← eval fuel (.expr cond) envId st
      if c.asBool then do
        let (_, _, st) ← runBody fuel body envId true st
        .ok (.null, st)
      else
        match elseB with
        | some b => do
          let (_, _, st) ← runBody fuel b envId true st
          .ok (.null, st)
        | none => .ok (.null, st)
    | .whileStmt _ _ =>
      .error (.fatal "This statement has not yet been set up for interpretation")
    | .forStmt _ _ _ =>
      .error (.fatal "This statement has not yet been set up for interpretation")
termination_by structural fuelP

/-- The argument loop of `eval_call`: evaluate a list of expressions left to
right. -/
def evalExprList (fuelP : Nat) (esP : List Expr) (envIdP : Nat) (stP : State) :
    Except Err (List Value × State) :=
  match fuelP, esP, envIdP, stP with
  | 0, _, _, _ => .error .outOfFuel
  | _ + 1, [], _, st => .ok ([], st)
  | fuel + 1, e :: rest, envId, st => do
    let (v, st) ← eval fuel (.expr e) envId st
    let (vs, st) ← evalExprList fuel rest envId st
    .ok (v :: vs, st)
termination_by structural fuelP

/-- The property loop of `eval_object_expr` (eval_expressions.rs lines
185–197): a valued property evaluates its expression, a shorthand property
looks up the variable of the same name; insertion replaces like
`HashMap::insert`. -/
def evalObjectProps (fuelP : Nat) (propsP : List (String × Option Expr))
    (accP : List (String × Value)) (envIdP : Nat) (stP : State) :
    Except Err (List (String × Value) × State) :=
  match fuelP, propsP, accP, envIdP, stP with
  | 0, _, _, _, _ => .error .outOfFuel
  | _ + 1, [], acc, _, st => .ok (acc, st)
  | fuel + 1, (key, some ve) :: rest, acc, envId, st => do
    let (v, st) ← eval fuel (.expr ve) envId st
    evalObjectProps fuel rest (assocSet acc key v) envId st
  | fuel + 1, (key, none) :: rest, acc, envId, st => do
    let v ← lookupVar st envId key
    evalObjectProps fuel rest (assocSet acc key v) envId st
termination_by structural fuelP

/-- `Body::run` (ast.rs lines 160–178): with `make_env` a fresh child of
`envId` is allocated and all statements run in it (no flag check here);
returns the last value together with the environment actually used. -/
def runBody (fuelP : Nat) (stmtsP : List Stmt) (envIdP : Nat) (makeEnvP : Bool)
    (stP : State) : Except Err (Value × Nat × State) :=
  match fuelP, stmtsP, envIdP, makeEnvP, stP with
  | 0, _, _, _, _ => .error .outOfFuel
  | fuel + 1, stmts, envId, makeEnv, st =>
    if makeEnv then
      let (newId, st) := st.alloc (emptyEnv (some envId))
      do
        let (v, st) ← runStmts fuel stmts newId st
        .ok (v, newId, st)
    else do
      let (v, st) ← runStmts fuel stmts envId st
      .ok (v, envId, st)
termination_by structural fuelP

/-- The statement loop inside `Body::run`: run every statement (the
`continue_interpreting` flag is NOT consulted here), keep the last value
(`NullValue` when the body is empty). -/
def runStmts (fuelP : Nat) (stmtsP : List Stmt) (envIdP : Nat) (stP : State) :
    Except Err (Value × State) :=
  match fuelP, stmtsP, envIdP, stP with
  | 0, _, _, _ => .error .outOfFuel
  | _ + 1, [], _, st => .ok (.null, st)
  | fuel + 1, s :: rest, envId, st => do
    let (v, st) ← eval fuel s envId st
    match rest with
    | [] => .ok (v, st)
    | _ => runStmts fuel rest envId st
termination_by structural fuelP

/-- The statement loop of `FunctionValue::call` (values.rs lines 277–284):
before each statement consult `continue_interpreting` on the call
environment; on `false`, break and keep the last evaluated value. -/
def callBody (fuelP : Nat) (stmtsP : List Stmt) (envIdP : Nat) (lastP : Value)
    (stP : State) : Except Err (Value × State) :=
  match fuelP, stmtsP, envIdP, lastP, stP with
  | 0, _, _, _, _ => .error .outOfFuel
  | _ + 1, [], _, last, st => .ok (last, st)
  | fuel + 1, s :: rest, envId, last, st =>
    match st.getEnv? envId with
    | none => .error .panicked
    | some e =>
      if e.continueInterpreting then do
        let (v, st) ← eval fuel s envId st
        callBody fuel rest envId v st
      else .ok (last, st)
termination_by structural fuelP

/-- `FunctionValue::call` (values.rs lines 266–288): allocate ONE new child
environment whose parent is `env` — the environment passed in by `eval_call`,
which is the CALLER's environment (`func.call(env, evaluated_args)` at
eval_expressions.rs line 276); the stored `declaration_env` is not consulted.
Then the arity check, parameter binding, and the flag-checking statement
loop. -/
def callFunction (fuelP : Nat) (paramsP : List String) (bodyP : List Stmt)
    (envP : Nat) (argsP : List Value) (stP : State) : Except Err (Value × State) :=
  match fuelP, paramsP, bodyP, envP, argsP, stP with
  | 0, _, _, _, _, _ => .error .outOfFuel
  | fuel + 1, params, body, env, args, st =>
    let (newEnvId, st) := st.alloc (emptyEnv (some env))
    if args.length != params.length then
      .error (.fatal ("Expected " ++ toString params.length ++
        " arguments, found " ++ toString args.length))
    else do
      let st ← bindParams newEnvId params args st
      callBody fuel body newEnvId .null st
termination_by structural fuelP

/-- `eval_while` (eval_statements.rs lines 56–63), transcribed exactly: the
condition is evaluated in `last_env`, which starts as the enclosing
environment and is replaced after every pass by the child environment the
body just ran in (`Body::run(..., true).1`); the body itself always runs in
a fresh child of the ORIGINAL enclosing environment.  No arm of the `eval`
dispatch reaches this function — a `While` node falls to the dispatch
catch-all — so it is embedded here on its own to analyse `eval_while`
itself. -/
def evalWhileLoop (fuelP : Nat) (condP : Expr) (bodyP : List Stmt)
    (origEnvP lastEnvP : Nat) (stP : State) : Except Err (Value × State) :=
  match fuelP, condP, bodyP, origEnvP, lastEnvP, stP with
  | 0, _, _, _, _, _ => .error .outOfFuel
  | fuel + 1, cond, body, origEnv, lastEnv, st => do
    let (c, st) ← eval fuel (.expr cond) lastEnv st
    if c.asBool then do
      let (_, usedEnv, st) ← runBody fuel body origEnv true st
      evalWhileLoop fuel cond body origEnv usedEnv st
    else .ok (.null, st)
termination_by structural fuelP

end

/-- `eval_program` (eval_statements.rs lines 10–12): run the program's body
in the root environment without a new scope, keeping the last value; the
root store is `initState` (interpreter start). -/
def runProgram (fuel : Nat) (body : List Stmt) : Except Err Value :=
  match runBody fuel body 0 false initState with
  | .ok (v, _, _) => .ok v
  | .error e => .error e

/-- The program `var x = 1; x = 2;`. -/
def progVarReassign : List Stmt :=
  [.varDecl false "x" (some (.numericLiteral 1)),
   .expr (.assignment (.identifier "x") (.numericLiteral 2))]

/-- The program `const x = 1; x = 2; x`. -/
def progConstReassign : List Stmt :=
  [.varDecl true "x" (some (.numericLiteral 1)),
   .expr (.assignment (.identifier "x") (.numericLiteral 2)),
   .expr (.identifier "x")]

/-- The closure program
`function make(n) { function inc() { return n + 1; } return inc; }
var f = make(5); f()`. -/
def progClosure : List Stmt :=
  [.funcDecl "make" ["n"]
     [.funcDecl "inc" []
        [.ret (.binary (.identifier "n") (.numericLiteral 1) "+")],
      .ret (.identifier "inc")],
   .varDecl false "f" (some (.call (.identifier "make") [.numericLiteral 5])),
   .expr (.call (.identifier "f") [])]

/-- The program `function f() { if (true) { return 1; } return 2; } f()`. -/
def progReturnInIf : List Stmt :=
  [.funcDecl "f" []
     [.ifStmt (.identifier "true") [.ret (.numericLiteral 1)] none,
      .ret (.numericLiteral 2)],
   .expr (.call (.identifier "f") [])]

/-- The program `function g() { return 1; return 2; } g()`: both returns at
the top level of the function body. -/
def progReturnTop : List Stmt :=
  [.funcDecl "g" [] [.ret (.numericLiteral 1), .ret (.numericLiteral 2)],
   .expr (.call (.identifier "g") [])]

/-- Condition `i < 2` of the while-scoping program. -/
def whileShadowCond : Expr :=
  .comparative (.identifier "i") (.numericLiteral 2) "<"

/-- Body `{ i = i + 1; var i = 10; }` of the while-scoping program: it
mutates the outer `i` and then declares a shadowing `i` in the body scope.
(The outer `i` is declared `const` because `assign_var` only lets constants
be re-assigned.) -/
def whileShadowBody : List Stmt :=
  [.expr (.assignment (.identifier "i")
     (.binary (.identifier "i") (.numericLiteral 1) "+")),
   .varDecl false "i" (some (.numericLiteral 10))]

/-- The program `const i = 0; while (i < 2) { i = i + 1; var i = 10; } i`. -/
def progWhileShadow : List Stmt :=
  [.varDecl true "i" (some (.numericLiteral 0)),
   .whileStmt whileShadowCond whileShadowBody,
   .expr (.identifier "i")]

/-- The store right after `const i = 0` has executed in the root scope. -/
def whileShadowStart : State :=
  match runBody 10 [.varDecl true "i" (some (.numericLiteral 0))] 0 false
      initState with
  | .ok (_, _, st) => st
  | .error _ => initState

/-- The program `"x" + 5`. -/
def progStrPlusNum : List Stmt :=
  [.expr (.binary (.stringLiteral "x") (.numericLiteral 5) "+")]

/-- The program `5 + "x"`. -/
def progNumPlusStr : List Stmt :=
  [.expr (.binary (.numericLiteral 5) (.stringLiteral "x") "+")]

/-- The program `"ab" * 3`. -/
def progStrTimesNum : List Stmt :=
  [.expr (.binary (.stringLiteral "ab") (.numericLiteral 3) "*")]

/-- The while driver as the spec describes it, for comparison with the
source's `evalWhileLoop`.  Modelled from the spec: "re-evaluates the
condition expression in the *original* enclosing scope each iteration (not
the freshly created per-iteration child scope)"; the body still runs in a
fresh child scope every pass. -/
def evalWhileLoopSpec (fuelP : Nat) (condP : Expr) (bodyP : List Stmt)
    (envIdP : Nat) (stP : State) : Except Err (Value × State) :=
  match fuelP, condP, bodyP, envIdP, stP with
  | 0, _, _, _, _ => .error .outOfFuel
  | fuel + 1, cond, body, envId, st => do
    let (c, st) ← eval fuel (.expr cond) envId st
    if c.asBool then do
      let (_, _, st) ← runBody fuel body envId true st
      evalWhileLoopSpec fuel cond body envId st
    else .ok (.null, st)
termination_by structural fuelP

/-- The while driver as the amended claim describes it: the condition is
evaluated in the enclosing scope on the first iteration (`prevBodyEnv =
none`) and in the child scope created for the previous iteration's body on
every later iteration; the body always runs in a fresh child of the
enclosing scope. -/
def whileAmendedLoop (fuelP : Nat) (condP : Expr) (bodyP : List Stmt)
    (enclosingP : Nat) (prevBodyEnvP : Option Nat) (stP : State) :
    Except Err (Value × State) :=
  match fuelP, condP, bodyP, enclosingP, prevBodyEnvP, stP with
  | 0, _, _, _, _, _ => .error .outOfFuel
  | fuel + 1, cond, body, enclosing, prevBodyEnv, st => do
    let condEnv := prevBodyEnv.getD enclosing
    let (c, st) ← eval fuel (.expr cond) condEnv st
    if c.asBool then do
      let (_, used, st) ← runBody fuel body enclosing true st
      whileAmendedLoop fuel cond body enclosing (some used) st
    else .ok (.null, st)
termination_by structural fuelP

/-- A store with the root environment and one fresh (empty) child of it at
index 1. -/
def childState : State :=
  (initState.alloc (emptyEnv (some 0))).2

theorem assocContains_assocSet (l : List (String × Value)) (k : String)
    (v : Value) : assocContains (assocSet l k v) k = true := by
  induction l with
  | nil => simp [assocSet, assocContains]
  | cons hd tl ih =>
    obtain ⟨k0, v0⟩ := hd
    by_cases h : k0 = k
    · simp [assocSet, assocContains, h]
    · have hb : (k0 == k) = false := by simp [h]
      simp only [assocSet, hb, Bool.false_eq_true, if_false]
      simp only [assocContains, List.any_cons, hb, Bool.false_or]
      exact ih

theorem assocGet?_assocSet (l : List (String × Value)) (k : String)
    (v : Value) : assocGet? (assocSet l k v) k = some v := by
  induction l with
  | nil => simp [assocSet, assocGet?]
  | cons hd tl ih =>
    obtain ⟨k0, v0⟩ := hd
    by_cases h : k0 = k
    · simp [assocSet, assocGet?, h]
    · have hb : (k0 == k) = false := by simp [h]
      simp only [assocSet, hb, Bool.false_eq_true, if_false, assocGet?]
      exact ih

/-- Claim C1: the spec says assigning to a constant is fatal while assigning
to a `var` succeeds; the code does the exact opposite.  `assign_var`
(environment.rs line 142) tests `!is_constant` where the intended test is
`is_constant`, so `var x = 1; x = 2;` aborts with the message
"Cannot re-assign a constant variable." even though `x` is not a constant,
while `const x = 1; x = 2;` succeeds and `x` then reads as 2. -/
theorem claim_C1_code_behavior :
    runProgram 100 progVarReassign =
      .error (.fatal "Cannot re-assign a constant variable.") ∧
    runProgram 100 progConstReassign = .ok (.number 2) :=
  ⟨rfl, rfl⟩

/-- Claim C2: the spec says a call allocates a child of the environment
captured at declaration; the code passes the CALLER's environment into
`FunctionValue::call` (eval_expressions.rs line 276) and uses it as the
parent (values.rs line 267), never reading `declaration_env`.  On the spec's
own closure example the inner function can therefore no longer see `n`: the
program aborts with the fatal unresolved-variable error instead of
returning 6. -/
theorem claim_C2_code_behavior :
    runProgram 100 progClosure = .error (.fatal "Error resolving variable n") :=
  rfl

/-- Claim C3: the spec says a `return` nested inside an `if` stops the whole
function, so `function f() { if (true) { return 1; } return 2; }` returns 1.
In the code `eval_return` clears `continue_interpreting` on the environment
executing the `return` — the if-body's child scope — while the call driver
(values.rs line 279) checks the flag only on the function's own frame, so
execution continues and the call returns 2.  A `return` directly at the top
level of a function body does stop the remaining statements (second
conjunct). -/
theorem claim_C3_code_behavior :
    runProgram 100 progReturnInIf = .ok (.number 2) ∧
    runProgram 100 progReturnTop = .ok (.number 1) :=
  ⟨rfl, rfl⟩

theorem evalWhileLoop_eq_amendedAux (cond : Expr) (body : List Stmt) :
    ∀ (fuel e l : Nat) (st : State),
      evalWhileLoop fuel cond body e l st =
        whileAmendedLoop fuel cond body e (some l) st := by
  intro fuel
  induction fuel with
  | zero => intro e l st; rfl
  | succ fuel ih =>
    intro e l st
    simp only [evalWhileLoop, whileAmendedLoop, Option.getD]
    cases h : eval fuel (.expr cond) l st with
    | error err => simp [bind, Except.bind, h]
    | ok p =>
      obtain ⟨c, st1⟩ := p
      simp only [bind, Except.bind, h]
      by_cases hc : c.asBool
      · simp only [hc, if_true]
        cases hr : runBody fuel body e true st1 with
        | error err => simp [bind, Except.bind, hr]
        | ok q =>
          obtain ⟨v, q2⟩ := q
          obtain ⟨used, st2⟩ := q2
          simp only [bind, Except.bind, hr]
          exact ih e used st2
      · simp [hc]

/-- Claim C4 counterexample.  Two facts against the claim, at concrete
inputs.  First, no while statement ever iterates: the `eval` dispatch has no
`While` arm, so evaluating a while statement — here the loop of
`progWhileShadow`, and the whole program — is the catch-all fatal error, not
the described condition/body evaluation.  Second, the while evaluator the
claim is traced to, `eval_while` (embedded as `evalWhileLoop`), re-checks
the condition in the PREVIOUS pass's body scope, not the original scope:
from `const i = 0`, `while (i < 2) { i = i + 1; var i = 10; }` exits after
one pass (the re-check sees the shadowing `i = 10`), leaving the outer `i`
at 1, while the spec-worded driver `evalWhileLoopSpec` runs a second pass
and leaves `i` at 2. -/
theorem claim_C4_counterexample :
    eval 10 (.whileStmt whileShadowCond whileShadowBody) 0 whileShadowStart =
      .error
        (.fatal "This statement has not yet been set up for interpretation") ∧
    runProgram 100 progWhileShadow =
      .error
        (.fatal "This statement has not yet been set up for interpretation") ∧
    (match evalWhileLoop 60 whileShadowCond whileShadowBody 0 0
        whileShadowStart with
     | .ok (_, st) => lookupVar st 0 "i"
     | .error e => .error e) = .ok (.number 1) ∧
    (match evalWhileLoopSpec 60 whileShadowCond whileShadowBody 0
        whileShadowStart with
     | .ok (_, st) => lookupVar st 0 "i"
     | .error e => .error e) = .ok (.number 2) :=
  ⟨rfl, rfl, rfl, rfl⟩

/-- Claim C4 (amended): a while statement never reaches `eval_while` — the
dispatch has no `While` arm, so evaluating one is the catch-all fatal error
(first conjunct, for every condition, body, scope and store).  In
`eval_while` itself, which no dispatch arm reaches, the condition is
evaluated in the original enclosing scope only on the first iteration and in
the child scope created for the previous iteration's body on every later
one; the body executes in a fresh child scope of the original enclosing
scope on every pass (second conjunct: the source's driver equals the driver
written from that description). -/
theorem claim_C4_amended :
    (∀ (fuel : Nat) (cond : Expr) (body : List Stmt) (envId : Nat) (st : State),
      eval (fuel + 1) (.whileStmt cond body) envId st =
        .error
          (.fatal "This statement has not yet been set up for interpretation")) ∧
    (∀ (fuel : Nat) (cond : Expr) (body : List Stmt) (envId : Nat) (st : State),
      evalWhileLoop fuel cond body envId envId st =
        whileAmendedLoop fuel cond body envId none st) := by
  constructor
  · intro fuel cond body envId st
    rfl
  · intro fuel cond body envId st
    cases fuel with
    | zero => rfl
    | succ fuel =>
      simp only [evalWhileLoop, whileAmendedLoop, Option.getD]
      cases h : eval fuel (.expr cond) envId st with
      | error err => simp [bind, Except.bind, h]
      | ok p =>
        obtain ⟨c, st1⟩ := p
        simp only [bind, Except.bind, h]
        by_cases hc : c.asBool
        · simp only [hc, if_true]
          cases hr : runBody fuel body envId true st1 with
          | error err => simp [bind, Except.bind, hr]
          | ok q =>
            obtain ⟨v, q2⟩ := q
            obtain ⟨used, st2⟩ := q2
            simp only [bind, Except.bind, hr]
            exact evalWhileLoop_eq_amendedAux cond body fuel envId used st2
        · simp [hc]

/-- Claim C5 counterexample: the claim says the string's position determines
the concatenation order, so `5 + "x"` is "5x"; the code erases the operand
order when it picks out the string (eval_expressions.rs lines 22–33) and
always appends the number on the right, so `5 + "x"` evaluates to "x5". -/
theorem claim_C5_counterexample :
    runProgram 30 progNumPlusStr = .ok (.str "x5") ∧ "x5" ≠ "5x" :=
  ⟨rfl, by decide⟩

/-- Claim C5 (amended): for `+` between a String and a Number in either
order the result is always the string followed by the number's rendering —
`"x" + 5` and `5 + "x"` both give "x5" — and `*` repeats the string, so
`"ab" * 3` gives "ababab". -/
theorem claim_C5_amended :
    (∀ (s : String) (n : Int),
      binopOnValues (.str s) (.number n) "+" = .str (s ++ toString n) ∧
      binopOnValues (.number n) (.str s) "+" = .str (s ++ toString n) ∧
      binopOnValues (.str s) (.number n) "*" = .str (strRepeat s n.toNat) ∧
      binopOnValues (.number n) (.str s) "*" = .str (strRepeat s n.toNat)) ∧
    runProgram 30 progStrPlusNum = .ok (.str "x5") ∧
    runProgram 30 progStrTimesNum = .ok (.str "ababab") :=
  ⟨fun _ _ => ⟨rfl, rfl, rfl, rfl⟩, rfl, rfl⟩

/-- Claim C6 counterexample: the claim lists `str` and `int` among the
builtins populated at interpreter start, but `setup_scope` never declares
them (`to_string` / `to_int` exist in native_funcs.rs yet are never
registered), so looking either name up in the root scope is the fatal
unresolved-variable error. -/
theorem claim_C6_counterexample :
    lookupVar initState 0 "str" = .error (.fatal "Error resolving variable str") ∧
    lookupVar initState 0 "int" = .error (.fatal "Error resolving variable int") :=
  ⟨rfl, rfl⟩

/-- Claim C6 (amended): the root environment is pre-populated with `print`,
`time`, `sleep`, `input` and `exit` (plus the constants `null`, `true`,
`false`); `str` and `int` are NOT bound, so looking them up fails
fatally. -/
theorem claim_C6_amended :
    lookupVar initState 0 "print" = .ok (.nativeFn .print) ∧
    lookupVar initState 0 "time" = .ok (.nativeFn .time) ∧
    lookupVar initState 0 "sleep" = .ok (.nativeFn .sleep) ∧
    lookupVar initState 0 "input" = .ok (.nativeFn .input) ∧
    lookupVar initState 0 "exit" = .ok (.nativeFn .exit) ∧
    lookupVar initState 0 "null" = .ok .null ∧
    lookupVar initState 0 "true" = .ok (.boolean true) ∧
    lookupVar initState 0 "false" = .ok (.boolean false) ∧
    lookupVar initState 0 "str" = .error (.fatal "Error resolving variable str") ∧
    lookupVar initState 0 "int" = .error (.fatal "Error resolving variable int") :=
  ⟨rfl, rfl, rfl, rfl, rfl, rfl, rfl, rfl, rfl, rfl⟩

/-- Claim C7 counterexample: the claim covers every list length n, but for
n = 0 the sentinel index -1 neither returns a last element (there is none;
the fetch panics on the underflowing `elements.len() - 1`) nor is it the
claimed fatal out-of-range error. -/
theorem claim_C7_counterexample :
    listIndex ([] : List Value) (-1) ≠ .error (.fatal "Index out of range") ∧
    listIndex ([] : List Value) (-1) = .error .panicked := by
  refine ⟨?_, rfl⟩
  intro h
  rw [show listIndex ([] : List Value) (-1) = .error .panicked from rfl] at h
  injection h with h2
  exact Err.noConfusion h2

/-- Claim C7 (amended): for a list of length n and truncated Number index i,
an in-range index 0 ≤ i ≤ n-1 returns the i-th element, i = -1 returns the
element at n-1 (for n ≥ 1; the pair n = 0, i = -1 instead panics on an
unsigned underflow — see the counterexample), and i ≥ n or i ≤ -2 is the
fatal "Index out of range" error. -/
theorem claim_C7_amended (elements : List Value) (index : Int) (v : Value) :
    ((0 ≤ index ∧ index ≤ (elements.length : Int) - 1 ∧
        elements.get? index.toNat = some v) →
      listIndex elements index = .ok v) ∧
    ((index = -1 ∧ elements.get? (elements.length - 1) = some v) →
      listIndex elements index = .ok v) ∧
    (((elements.length : Int) ≤ index ∨ index ≤ -2) →
      listIndex elements index = .error (.fatal "Index out of range")) := by
  refine ⟨?_, ?_, ?_⟩
  · rintro ⟨h0, hle, hget⟩
    have hg : outOfRangeGuard elements.length index = false := by
      simp only [outOfRangeGuard, Bool.or_eq_false_iff, decide_eq_false_iff_not]
      omega
    have hne : (index == -1) = false := by
      simp only [beq_eq_false_iff_ne, ne_eq]
      omega
    simp only [listIndex, hg, Bool.false_eq_true, if_false, hne, hget]
  · rintro ⟨h1, hget⟩
    subst h1
    have hg : outOfRangeGuard elements.length (-1) = false := by
      simp only [outOfRangeGuard, Bool.or_eq_false_iff, decide_eq_false_iff_not]
      omega
    simp only [listIndex, hg, Bool.false_eq_true, if_false, hget]
    rfl
  · intro h
    have hg : outOfRangeGuard elements.length index = true := by
      simp only [outOfRangeGuard, Bool.or_eq_true, decide_eq_true_eq]
      omega
    simp [listIndex, hg]

/-- Claim C7 witness: the amended theorem applied to the concrete list
[7, 8, 9] at index 1 (in range), index -1 (last element), and index 3
(out of range). -/
theorem claim_C7_amended_witness :
    listIndex [Value.number 7, Value.number 8, Value.number 9] 1 =
      .ok (Value.number 8) ∧
    listIndex [Value.number 7, Value.number 8, Value.number 9] (-1) =
      .ok (Value.number 9) ∧
    listIndex [Value.number 7, Value.number 8, Value.number 9] 3 =
      .error (.fatal "Index out of range") :=
  ⟨(claim_C7_amended [Value.number 7, Value.number 8, Value.number 9] 1
      (Value.number 8)).1 ⟨by decide, by decide, rfl⟩,
   (claim_C7_amended [Value.number 7, Value.number 8, Value.number 9] (-1)
      (Value.number 9)).2.1 ⟨rfl, rfl⟩,
   (claim_C7_amended [Value.number 7, Value.number 8, Value.number 9] 3
      (Value.number 9)).2.2 (Or.inl (by decide))⟩

theorem lookupVar_setEnv_self (st : State) (envId : Nat) (e2 : EnvData)
    (name : String) (v : Value) (hlen : envId < st.envs.length)
    (hcont : assocContains e2.vars name = true)
    (hgv : assocGet? e2.vars name = some v) :
    lookupVar (st.setEnv envId e2) envId name = .ok v := by
  have hget2 : (st.setEnv envId e2).getEnv? envId = some e2 := by
    simp only [State.getEnv?, State.setEnv, List.get?_eq_getElem?]
    exact List.getElem?_set_eq_of_lt _ hlen
  have hL : (st.setEnv envId e2).envs.length = st.envs.length := by
    simp [State.setEnv]
  rw [lookupVar, resolve, hL]
  simp only [resolveAux, hget2, hcont, if_true]
  simp only [bind, Except.bind, hget2, hgv]

/-- Claim C8: `declare_var` is fatal exactly when the name already exists in
the very same environment record; when the name is absent there — whatever
any parent binds — the declaration succeeds and a subsequent lookup from that
environment returns the newly declared value (the innermost binding shadows
any outer one, since `resolve` stops at the first owning scope). -/
theorem claim_C8_same_scope_declaration (st : State) (envId : Nat)
    (e : EnvData) (name : String) (v : Value) (c : Bool)
    (hget : st.getEnv? envId = some e) :
    (assocContains e.vars name = true →
      e.declareVar name v c = .error (.fatal ("Cannot declare variable " ++
        name ++ " as it is already defined."))) ∧
    (assocContains e.vars name = false →
      ∃ e2, e.declareVar name v c = .ok e2 ∧
        lookupVar (st.setEnv envId e2) envId name = .ok v) := by
  constructor
  · intro h
    simp [EnvData.declareVar, h]
  · intro h
    have hlen : envId < st.envs.length := by
      by_contra hge
      have hnone : st.envs.get? envId = none := List.get?_eq_none.mpr (by omega)
      rw [State.getEnv?, hnone] at hget
      exact Option.noConfusion hget
    have hdecl : e.declareVar name v c = .ok
        { e with
          consts := if c then name :: e.consts else e.consts,
          vars := assocSet e.vars name v } := by
      simp [EnvData.declareVar, h]
    exact ⟨_, hdecl, lookupVar_setEnv_self st envId _ name v hlen
      (assocContains_assocSet e.vars name v)
      (assocGet?_assocSet e.vars name v)⟩

/-- Claim C8 witness: re-declaring `null` in the root scope (where it is
already bound) is the fatal error, while declaring `print` in a fresh child
scope — `print` is bound only in the parent root scope — succeeds and the
lookup from the child then yields the new (shadowing) value. -/
theorem claim_C8_witness :
    (globalEnv.declareVar "null" (.number 3) false =
      .error (.fatal "Cannot declare variable null as it is already defined.")) ∧
    (∃ e2, (emptyEnv (some 0)).declareVar "print" (.number 3) false = .ok e2 ∧
      lookupVar (childState.setEnv 1 e2) 1 "print" = .ok (.number 3)) :=
  ⟨(claim_C8_same_scope_declaration initState 0 globalEnv "null" (.number 3)
      false rfl).1 rfl,
   (claim_C8_same_scope_declaration childState 1 (emptyEnv (some 0)) "print"
      (.number 3) false rfl).2 rfl⟩

/-- Claim C9: whenever the two operands of a comparative expression evaluate
to values of differing runtime type, `==`, `<`, `>`, `<=`, `>=` all produce
the boolean false and `!=` produces the boolean true, without consulting the
value model's equality or ordering. -/
theorem claim_C9_cross_type_comparisons (l r : Value)
    (h : l.getType ≠ r.getType) :
    evalCompOp "==" l r = .ok (.boolean false) ∧
    evalCompOp "<" l r = .ok (.boolean false) ∧
    evalCompOp ">" l r = .ok (.boolean false) ∧
    evalCompOp "<=" l r = .ok (.boolean false) ∧
    evalCompOp ">=" l r = .ok (.boolean false) ∧
    evalCompOp "!=" l r = .ok (.boolean true) := by
  have hb : (l.getType != r.getType) = true := by
    simp [bne_iff_ne, h]
  refine ⟨?_, ?_, ?_, ?_, ?_, ?_⟩ <;> simp [evalCompOp, hb]

/-- Claim C9 witness: the theorem applied to the Number 1 and the String
"a". -/
theorem claim_C9_witness :
    evalCompOp "==" (.number 1) (.str "a") = .ok (.boolean false) ∧
    evalCompOp "<" (.number 1) (.str "a") = .ok (.boolean false) ∧
    evalCompOp ">" (.number 1) (.str "a") = .ok (.boolean false) ∧
    evalCompOp "<=" (.number 1) (.str "a") = .ok (.boolean false) ∧
    evalCompOp ">=" (.number 1) (.str "a") = .ok (.boolean false) ∧
    evalCompOp "!=" (.number 1) (.str "a") = .ok (.boolean true) :=
  claim_C9_cross_type_comparisons (.number 1) (.str "a") (by decide)

/-- Claim C10: for the empty list and index -1 the out-of-range guard
`(len as i32) < index + 1 || index <= -2` does not fire, so the documented
fatal "Index out of range" branch is not taken; the element fetch then
computes `elements.len() - 1` on length 0 — an unguarded unsigned
subtraction — and the access ends in a panic, not in the out-of-range fatal
error. -/
theorem claim_C10_empty_list_neg_one :
    outOfRangeGuard 0 (-1) = false ∧
    listIndex ([] : List Value) (-1) = .error .panicked ∧
    listIndex ([] : List Value) (-1) ≠ .error (.fatal "Index out of range") := by
  refine ⟨rfl, rfl, ?_⟩
  intro h
  rw [show listIndex ([] : List Value) (-1) = .error .panicked from rfl] at h
  injection h with h2
  exact Err.noConfusion h2

end Interp
